import Mathlib

/-!
# vattenfall_FI exporter: the startup path of `main.go`

A shallow embedding of `src/main.go`.  Strings are Lean strings, the external
calls that `main` makes (timezone database, file system, network) are the
fields of `Env`, and one run of `main` is the list of external calls it made,
the way the process ended, and the registries and routes it built.
-/

namespace Vattenfall

/-! ## `regionFlag` (main.go, lines 22-31) -/

/-- Go's `string`. -/
abbrev GoString := String

/-- The flag value `type regionFlag []string`. -/
abbrev regionFlag := List String

/-- The method `(r *regionFlag) Set(value)`: the receiver after
`*r = append(*r, value)` and the returned error (`none` is Go's `nil`). -/
def regionFlag.Set (r : regionFlag) (value : String) : regionFlag × Option String :=
  (r ++ [value], none)

/-- What `flag.Parse` does with the occurrences of `-region`: one call of `Set`
for each value, in command-line order, on the zero value of `regionFlag`. -/
def parseRegions (values : List String) : regionFlag :=
  values.foldl (fun r v => (regionFlag.Set r v).1) []

/-- The method `(r *regionFlag) String()`: the regions joined by a comma and a blank. -/
def regionFlag.String (r : regionFlag) : GoString :=
  ", ".intercalate r

/-! ## `strings.Split` with a one-byte separator -/

/-- The pieces of `s` between the occurrences of `sep`; a string without
`sep` is one piece, and so is the empty string. -/
def splitChars (sep : Char) : List Char → List (List Char)
  | [] => [[]]
  | c :: cs =>
    if c = sep then [] :: splitChars sep cs
    else
      match splitChars sep cs with
      | [] => [[c]]
      | piece :: rest => (c :: piece) :: rest

/-- Go's `strings.Split(s, sep)` for a separator of one byte, as `main` calls
it with `"."`. -/
def strings.Split (s : String) (sep : Char) : List String :=
  (splitChars sep s.data).map String.mk

/-! ## The values `main` builds -/

/-- A loaded `*time.Location`, known by the name it was loaded under. -/
structure Location where
  name : String
deriving DecidableEq

/-- The collectors `main` registers.  `promhttpCounter` and `promhttpGauge`
are the two metrics `promhttp.InstrumentMetricHandler` registers itself. -/
inductive Collector where
  | vattenfall (regions : regionFlag) (loc : Location)
  | process
  | goRuntime
  | promhttpCounter
  | promhttpGauge
deriving DecidableEq

/-- The constructor `NewVattenfallCollector(regions, loc)`. -/
def NewVattenfallCollector (regions : regionFlag) (loc : Location) : Collector :=
  Collector.vattenfall regions loc

/-- The two registries of `main`: `c` (line 56) and `p` (line 79). -/
inductive RegId where
  | c
  | p
deriving DecidableEq

/-- The handlers `main` mounts. -/
inductive Handler where
  | handlerFor (reg : RegId)
  | instrumented (reg : RegId) (inner : Handler)
  | forecast (loc : Location) (regions : regionFlag)
deriving DecidableEq

/-- The function `forecastHandler(loc, regions)`, kept as the closure over its
two arguments. -/
def forecastHandler (loc : Location) (regions : regionFlag) : Handler :=
  Handler.forecast loc regions

/-- The call `Registry.MustRegister`: the collector joins the registry. -/
def MustRegister (reg : List Collector) (col : Collector) : List Collector :=
  reg ++ [col]

/-- The registration `promhttp.InstrumentMetricHandler` does on its registry:
its counter and its gauge, each kept as is when already registered. -/
def instrumentRegistry (reg : List Collector) : List Collector :=
  let reg1 := if Collector.promhttpCounter ∈ reg then reg else reg ++ [Collector.promhttpCounter]
  if Collector.promhttpGauge ∈ reg1 then reg1 else reg1 ++ [Collector.promhttpGauge]

/-! ## Runs of `main` -/

/-- The command line after `flag.Parse`, and the build information of
`Version()`, `Commit()` and `Timestamp()`. -/
structure Flags where
  regions : regionFlag
  txtfile : String
  addr : String
  showVersion : Bool
  version : String
  commit : String
  date : String

/-- The answers of the outside world to the calls of `main`. -/
structure Env where
  /-- The call `time.LoadLocation`. -/
  loadLocation : String → Except String Location
  /-- The error of `prometheus.WriteToTextfile`, `none` for `nil`. -/
  writeToTextfile : String → List Collector → Option String
  /-- The call `net.Listen("tcp", addr)`: an error, or the address the
  listener reports as `listener.Addr().String()`. -/
  listen : String → Except String String
  /-- The error `h.Serve` returns when it is not `http.ErrServerClosed`. -/
  serve : Option String

/-- The external calls of `main`, in the order they are made. -/
inductive Action where
  | printStdout (text : String)
  | loadLocation (name : String)
  | newPedanticRegistry (reg : RegId)
  | mustRegister (reg : RegId) (col : Collector)
  | writeMetricsToStdout (reg : RegId)
  | writeToTextfile (file : String) (reg : RegId)
  | notifyContext
  | listen (network addr : String)
  | handle (pattern : String) (h : Handler)
  | serve
  | logPrintln (args : List String)
  | contextDone
  | shutdown
deriving DecidableEq

/-- How the process ends: `os.Exit(code)`, `log.Fatalln(args)`, a Go run-time
panic, or `main` returning. -/
inductive Outcome where
  | exit (code : Nat)
  | fatal (args : List String)
  | panicked
  | returned
deriving DecidableEq

/-- One run of `main`. -/
structure Run where
  trace : List Action
  outcome : Outcome
  /-- The collectors in registry `c` when the process ends. -/
  regC : List Collector
  /-- The collectors in registry `p` when the process ends. -/
  regP : List Collector
  /-- The routes of the `http.ServeMux`. -/
  mux : List (String × Handler)
deriving DecidableEq

/-- The line `-version` prints (main.go, line 43). -/
def versionLine (f : Flags) : String :=
  "\x7b\"version\": \"" ++ f.version ++ "\", \"commit\": \"" ++ f.commit ++
    "\", \"date\": \"" ++ f.date ++ "\"\x7d\n"

/-- The HTTP branch of `main` (lines 75-109), entered with the location and
with registry `c` holding `regC`.  The goroutine of lines 95-99 is folded into
the sequence: when `h.Serve` fails with an error other than
`http.ErrServerClosed` its `log.Fatalln` ends the process, otherwise the server
runs until the signal context is done and `main` returns after `Shutdown`. -/
def mainHTTP (f : Flags) (env : Env) (loc : Location) (pre : List Action)
    (regC : List Collector) : Run :=
  let regP := MustRegister (MustRegister [] Collector.process) Collector.goRuntime
  let t1 := pre ++ [Action.notifyContext, Action.newPedanticRegistry RegId.p,
    Action.mustRegister RegId.p Collector.process,
    Action.mustRegister RegId.p Collector.goRuntime,
    Action.listen "tcp" f.addr]
  match env.listen f.addr with
  | Except.error err =>
    { trace := t1, outcome := Outcome.fatal [err], regC := regC, regP := regP, mux := [] }
  | Except.ok bound =>
    let hMetrics := Handler.handlerFor RegId.p
    let hPrices := Handler.instrumented RegId.p (Handler.handlerFor RegId.c)
    let regP1 := instrumentRegistry regP
    let hForecast := Handler.instrumented RegId.p (forecastHandler loc f.regions)
    let regP2 := instrumentRegistry regP1
    let mux := [("/metrics", hMetrics), ("/prices", hPrices), ("/forecast", hForecast)]
    let t2 := t1 ++ [Action.handle "/metrics" hMetrics, Action.handle "/prices" hPrices,
      Action.handle "/forecast" hForecast, Action.serve]
    match env.serve with
    | some err =>
      { trace := t2, outcome := Outcome.fatal [err], regC := regC, regP := regP2, mux := mux }
    | none =>
      { trace := t2 ++ [Action.logPrintln ["exporter listening on:", bound],
          Action.contextDone, Action.shutdown,
          Action.logPrintln ["exporter shutdown completed"]],
        outcome := Outcome.returned, regC := regC, regP := regP2, mux := mux }

/-- The textfile branch of `main` (lines 64-73). -/
def mainTextfile (f : Flags) (env : Env) (pre : List Action) (regC : List Collector) : Run :=
  let elems := strings.Split f.txtfile '.'
  match elems[elems.length - 1]? with
  | none => { trace := pre, outcome := Outcome.panicked, regC := regC, regP := [], mux := [] }
  | some last =>
    if last ≠ "prom" then
      { trace := pre,
        outcome := Outcome.fatal ["filename must end with .prom extension:", f.txtfile],
        regC := regC, regP := [], mux := [] }
    else
      let t1 := pre ++ [Action.writeToTextfile f.txtfile RegId.c]
      match env.writeToTextfile f.txtfile regC with
      | some err => { trace := t1, outcome := Outcome.fatal [err], regC := regC, regP := [], mux := [] }
      | none => { trace := t1, outcome := Outcome.exit 0, regC := regC, regP := [], mux := [] }

/-- The function `main` (lines 33-110). -/
def main (f : Flags) (env : Env) : Run :=
  if f.showVersion then
    { trace := [Action.printStdout (versionLine f)], outcome := Outcome.exit 0,
      regC := [], regP := [], mux := [] }
  else if f.regions.length = 0 then
    { trace := [], outcome := Outcome.fatal ["need at least one region"],
      regC := [], regP := [], mux := [] }
  else
    match env.loadLocation "Europe/Helsinki" with
    | Except.error err =>
      { trace := [Action.loadLocation "Europe/Helsinki"], outcome := Outcome.fatal [err],
        regC := [], regP := [], mux := [] }
    | Except.ok loc =>
      let regC := MustRegister [] (NewVattenfallCollector f.regions loc)
      let pre := [Action.loadLocation "Europe/Helsinki", Action.newPedanticRegistry RegId.c,
        Action.mustRegister RegId.c (NewVattenfallCollector f.regions loc)]
      if f.txtfile = "" ∧ f.addr = "" then
        { trace := pre ++ [Action.writeMetricsToStdout RegId.c], outcome := Outcome.exit 0,
          regC := regC, regP := [], mux := [] }
      else if f.txtfile ≠ "" then
        mainTextfile f env pre regC
      else if f.addr ≠ "" then
        mainHTTP f env loc pre regC
      else
        { trace := pre, outcome := Outcome.returned, regC := regC, regP := [], mux := [] }

/-! ## Observations on a run -/

/-- Whether the process was ended by `log.Fatalln`. -/
def Outcome.isFatal : Outcome → Bool
  | Outcome.fatal _ => true
  | _ => false

/-- The run made the one-shot dump to standard output (line 60). -/
def Run.stdoutMode (r : Run) : Bool :=
  r.trace.any fun a =>
    match a with
    | Action.writeMetricsToStdout _ => true
    | _ => false

/-- The run entered the textfile branch (lines 64-73): it either stopped at
the extension check, the only `log.Fatalln` with two arguments, or called
`prometheus.WriteToTextfile`. -/
def Run.textfileMode (r : Run) : Bool :=
  (r.trace.any fun a =>
    match a with
    | Action.writeToTextfile _ _ => true
    | _ => false) ||
  (match r.outcome with
    | Outcome.fatal [msg, _] => msg == "filename must end with .prom extension:"
    | _ => false)

/-- The run entered the HTTP branch (lines 75-109), whose first call is
`signal.NotifyContext`. -/
def Run.httpMode (r : Run) : Bool :=
  r.trace.any fun a =>
    match a with
    | Action.notifyContext => true
    | _ => false

/-- The run called `net.Listen`. -/
def Run.listened (r : Run) : Bool :=
  r.trace.any fun a =>
    match a with
    | Action.listen _ _ => true
    | _ => false

/-- The collectors whose metrics a scrape of the handler returns:
`promhttp.HandlerFor` gathers its registry, `InstrumentMetricHandler` answers
with what the handler it wraps answers, and the forecast handler answers JSON. -/
def Run.served (r : Run) : Handler → List Collector
  | Handler.handlerFor RegId.c => r.regC
  | Handler.handlerFor RegId.p => r.regP
  | Handler.instrumented _ inner => r.served inner
  | Handler.forecast _ _ => []

/-- The price collector, whatever it was built from. -/
def Collector.isPrice : Collector → Bool
  | Collector.vattenfall _ _ => true
  | _ => false

/-- A route of the run whose scrape returns the price gauges together with the
process and the Go run-time metrics. -/
def Run.servesAllTogether (r : Run) (route : String × Handler) : Bool :=
  (r.served route.2).any Collector.isPrice &&
    decide (Collector.process ∈ r.served route.2) &&
    decide (Collector.goRuntime ∈ r.served route.2)

/-! ## The price pipeline (spec sections 3, 4.3, 4.4 and 4.5)

`NewVattenfallCollector` and `forecastHandler` are called by `main.go` and
defined in files of the repository that are not part of `src/`; what follows
is their contract as the specification words it.  Instants are seconds since
the epoch and prices are fixed-point integers. -/

/-- Modelled from the spec: the region identifier of section 3, whose
definition is not in `src/`; opaque, equal by value. -/
abbrev Region := String

/-- Modelled from the spec: the `PricePoint` of section 3, whose definition is
not in `src/`: the start of the hour bucket and the price. -/
structure PricePoint where
  bucketStart : Int
  price : Int
deriving DecidableEq

/-- Modelled from the spec: the `RegionPriceSet` of section 3, whose
definition is not in `src/`: the price points of one region. -/
abbrev RegionPriceSet := List PricePoint

/-- Modelled from the spec: the `CacheEntry` of section 3, whose definition is
not in `src/`; an entry with only a failure has no points and carries the
error. -/
structure CacheEntry where
  region : Region
  points : RegionPriceSet
  fetchedAt : Int
  error : Option String
deriving DecidableEq

/-- Modelled from the spec: `RegionCache.get` of section 4.3, whose code is
not in `src/`, at its step 4: it returns the possibly stale or empty price set
of the region's entry, and no error leaves the cache. -/
def RegionCache.get (cache : Region → CacheEntry) (region : Region) : RegionPriceSet :=
  (cache region).points

/-- Modelled from the spec: the order of section 3 on a `RegionPriceSet`,
whose definition is not in `src/`: ascending by bucket start. -/
def RegionPriceSet.ascending (ps : RegionPriceSet) : Prop :=
  ps.Pairwise fun a b => a.bucketStart ≤ b.bucketStart

/-- Modelled from the spec: the filter of `ForecastProjector` (section 4.5),
whose code, behind `forecastHandler`, is not in `src/`: the points whose
bucket start is at or after the current bucket, in the order of the set. -/
def futurePoints (cur : Int) : RegionPriceSet → List PricePoint
  | [] => []
  | p :: ps => if cur ≤ p.bucketStart then p :: futurePoints cur ps else futurePoints cur ps

/-- Modelled from the spec: `ForecastProjector.forecast(regions)` of section
4.5, whose code, behind `forecastHandler`, is not in `src/`: for each requested
region the future points of the set `RegionCache.get` returns. -/
def ForecastProjector.forecast (cache : Region → CacheEntry) (cur : Int) :
    List Region → List (Region × List PricePoint)
  | [] => []
  | r :: rs =>
    (r, futurePoints cur (RegionCache.get cache r)) :: ForecastProjector.forecast cache cur rs

/-- The hour bucket that starts at the given hour of the first day. -/
def hour (h : Int) : Int := h * 3600

/-- A cache where region `A` holds the buckets 09:00, 10:00 and 11:00 and
every other region has only a failed fetch. -/
def cacheAB (region : Region) : CacheEntry :=
  if region = "A" then
    { region := "A",
      points := [{ bucketStart := hour 9, price := 512 }, { bucketStart := hour 10, price := 498 },
        { bucketStart := hour 11, price := 530 }],
      fetchedAt := hour 8, error := none }
  else
    { region := region, points := [], fetchedAt := hour 8, error := some "fetch failure" }

/-- An outside world where every call succeeds. -/
def envOk : Env :=
  { loadLocation := fun n => Except.ok { name := n },
    writeToTextfile := fun _ _ => none,
    listen := fun a => Except.ok a,
    serve := none }

/-- A command line: the regions, `-output.file` and `-output.http`. -/
def flagsOf (regions : List String) (txtfile addr : String) (showVersion : Bool) : Flags :=
  { regions := parseRegions regions, txtfile := txtfile, addr := addr,
    showVersion := showVersion, version := "1.0.0", commit := "abc", date := "2024-01-01" }

/-! ## Theorems -/

/-- C4: `Set` returns a nil error and appends its value at the end of the
receiver, so that parsing the values `v1 .. vn` from the empty flag gives
exactly `[v1, .., vn]`: same length, same order, nothing dropped or changed. -/
theorem regionFlag_Set_appends (r : regionFlag) (v : String) (vs : List String) :
    (regionFlag.Set r v).2 = none ∧
    (regionFlag.Set r v).1 = r ++ [v] ∧
    ((regionFlag.Set r v).1).length = r.length + 1 ∧
    (∀ i (h : i < r.length), ((regionFlag.Set r v).1)[i]? = some (r.get ⟨i, h⟩)) ∧
    vs.foldl (fun acc x => (regionFlag.Set acc x).1) r = r ++ vs ∧
    parseRegions vs = vs ∧
    (parseRegions vs).length = vs.length := by
  have hfold : ∀ (ws : List String) (acc : regionFlag),
      ws.foldl (fun acc x => (regionFlag.Set acc x).1) acc = acc ++ ws := by
    intro ws
    induction ws with
    | nil => intro acc; simp
    | cons w ws ih =>
      intro acc
      rw [List.foldl_cons, ih]
      simp [regionFlag.Set]
  refine ⟨rfl, rfl, by simp [regionFlag.Set], ?_, hfold vs r, ?_, ?_⟩
  · intro i h
    simp [regionFlag.Set, List.getElem?_append_left h, List.getElem?_eq_getElem h]
  · simpa [parseRegions] using hfold vs []
  · have := hfold vs []
    simp [parseRegions, this]

/-- Witness of C4: `Set` on the flag holding `SN1`, and the parse of a command
line with a repeated and an empty region. -/
theorem regionFlag_Set_appends_witness :
    (regionFlag.Set ["SN1"] "SN2").1 = ["SN1", "SN2"] ∧
    ((regionFlag.Set ["SN1"] "SN2").1)[0]? = some "SN1" ∧
    parseRegions ["SN1", "SN1", ""] = ["SN1", "SN1", ""] :=
  let h := regionFlag_Set_appends ["SN1"] "SN2" ["SN1", "SN1", ""]
  ⟨h.2.1, h.2.2.2.1 0 (by decide), h.2.2.2.2.2.1⟩

/-- C1: without `-version` and with no `-region` value, `main` ends in
`log.Fatalln("need at least one region")` having made no external call: no
timezone loaded, no registry or collector created, nothing written or served. -/
theorem main_no_region_fatal (f : Flags) (env : Env)
    (hv : f.showVersion = false) (hr : f.regions.length = 0) :
    (main f env).outcome = Outcome.fatal ["need at least one region"] ∧
    (main f env).trace = [] ∧
    (main f env).regC = [] ∧ (main f env).regP = [] ∧ (main f env).mux = [] := by
  simp [main, hv, hr]

/-- Witness of C1 on the command line `-output.http :9100` with no region. -/
theorem main_no_region_fatal_witness :
    (main (flagsOf [] "" ":9100" false) envOk).outcome
        = Outcome.fatal ["need at least one region"] ∧
    (main (flagsOf [] "" ":9100" false) envOk).trace = [] :=
  let h := main_no_region_fatal (flagsOf [] "" ":9100" false) envOk rfl rfl
  ⟨h.1, h.2.1⟩

/-- C10: with `-version` set, whatever the regions and the two output flags,
`main` prints the version line to standard output and exits with status 0,
and that print is its only external call. -/
theorem main_version_first (f : Flags) (env : Env) (hv : f.showVersion = true) :
    (main f env).trace = [Action.printStdout (versionLine f)] ∧
    (main f env).outcome = Outcome.exit 0 ∧
    (main f env).regC = [] ∧ (main f env).regP = [] ∧ (main f env).mux = [] := by
  simp [main, hv]

/-- Witness of C10 on `-version -output.file metrics.txt -output.http :9100`
with no region. -/
theorem main_version_first_witness :
    (main (flagsOf [] "metrics.txt" ":9100" true) envOk).trace
        = [Action.printStdout (versionLine (flagsOf [] "metrics.txt" ":9100" true))] ∧
    (main (flagsOf [] "metrics.txt" ":9100" true) envOk).outcome = Outcome.exit 0 :=
  let h := main_version_first (flagsOf [] "metrics.txt" ":9100" true) envOk rfl
  ⟨h.1, h.2.1⟩

/-! ### `strings.Split` -/

theorem splitChars_ne_nil (sep : Char) (l : List Char) : splitChars sep l ≠ [] := by
  cases l with
  | nil => simp [splitChars]
  | cons c cs =>
    unfold splitChars
    split
    · simp
    · split <;> simp

theorem splitChars_of_not_mem (sep : Char) (l : List Char) (h : sep ∉ l) :
    splitChars sep l = [l] := by
  induction l with
  | nil => rfl
  | cons c cs ih =>
    have hc : c ≠ sep := fun e => h (by simp [e])
    have hcs : sep ∉ cs := fun m => h (List.mem_cons_of_mem _ m)
    simp [splitChars, hc, ih hcs]

theorem splitChars_append (sep : Char) (a b : List Char) :
    splitChars sep (a ++ sep :: b) = splitChars sep a ++ splitChars sep b := by
  induction a with
  | nil => simp [splitChars]
  | cons c cs ih =>
    by_cases hc : c = sep
    · simp [splitChars, hc, ih]
    · obtain ⟨q, rest, hq⟩ := List.exists_cons_of_ne_nil (splitChars_ne_nil sep cs)
      simp [splitChars, hc, ih, hq]

theorem exists_last_sep (sep : Char) (l : List Char) (h : sep ∈ l) :
    ∃ a b, l = a ++ sep :: b ∧ sep ∉ b := by
  induction l with
  | nil => simp at h
  | cons c cs ih =>
    by_cases hcs : sep ∈ cs
    · obtain ⟨a, b, hab, hb⟩ := ih hcs
      exact ⟨c :: a, b, by simp [hab], hb⟩
    · have hc : sep = c := by
        rcases List.mem_cons.1 h with e | m
        · exact e
        · exact absurd m hcs
      exact ⟨[], cs, by simp [hc], hcs⟩

/-- The last piece of `strings.Split(s, ".")` is `prom` exactly when `s` is
`prom` itself or ends in `.prom`. -/
theorem splitChars_getLast_prom (l : List Char) :
    (splitChars '.' l).getLast? = some ['p', 'r', 'o', 'm'] ↔
      l = ['p', 'r', 'o', 'm'] ∨ ['.', 'p', 'r', 'o', 'm'] <:+ l := by
  by_cases hdot : '.' ∈ l
  · obtain ⟨a, b, hab, hb⟩ := exists_last_sep '.' l hdot
    subst hab
    rw [splitChars_append, splitChars_of_not_mem '.' b hb]
    have hlast : (splitChars '.' a ++ [b]).getLast? = some b := by simp
    rw [hlast]
    simp only [Option.some.injEq]
    constructor
    · intro e
      subst e
      exact Or.inr ⟨a, rfl⟩
    · rintro (e | hs)
      · have : '.' ∈ ['p', 'r', 'o', 'm'] := by rw [← e]; simp
        simp at this
      · have h2 : ('.' :: b) <:+ (a ++ '.' :: b) := ⟨a, rfl⟩
        rcases List.suffix_or_suffix_of_suffix hs h2 with h3 | h3
        · rcases List.suffix_cons_iff.1 h3 with e | h4
          · simpa using e.symm
          · exact absurd (h4.subset (by simp)) hb
        · rcases List.suffix_cons_iff.1 h3 with e | h4
          · simpa using e
          · have : '.' ∈ ['p', 'r', 'o', 'm'] := h4.subset (by simp)
            simp at this
  · rw [splitChars_of_not_mem '.' l hdot]
    simp only [List.getLast?_singleton, Option.some.injEq]
    constructor
    · exact Or.inl
    · rintro (e | hs)
      · exact e
      · exact absurd (hs.subset (by simp)) hdot

theorem Split_last (s : String) :
    ∃ last, (strings.Split s '.')[(strings.Split s '.').length - 1]? = some last ∧
      (strings.Split s '.').getLast? = some last := by
  have hne : strings.Split s '.' ≠ [] := by
    simp [strings.Split, splitChars_ne_nil]
  refine ⟨(strings.Split s '.').getLast hne, ?_, List.getLast?_eq_getLast _ hne⟩
  rw [← List.getLast?_eq_getElem?, List.getLast?_eq_getLast _ hne]

/-- The extension check of line 65 passes exactly for the file name `prom`
and for the names that end in `.prom`. -/
theorem Split_last_prom (s : String) :
    (strings.Split s '.').getLast? = some "prom" ↔
      s = "prom" ∨ ['.', 'p', 'r', 'o', 'm'] <:+ s.data := by
  have h1 : (strings.Split s '.').getLast? = some "prom" ↔
      (splitChars '.' s.data).getLast? = some ['p', 'r', 'o', 'm'] := by
    unfold strings.Split
    rw [List.getLast?_map]
    cases (splitChars '.' s.data).getLast? with
    | none => simp
    | some q =>
      simp only [Option.map_some', Option.some.injEq]
      constructor
      · intro e
        have := congrArg String.data e
        simpa using this
      · intro e
        subst e
        rfl
  rw [h1, splitChars_getLast_prom]
  have h2 : s = "prom" ↔ s.data = ['p', 'r', 'o', 'm'] := by
    constructor
    · intro e
      subst e
      rfl
    · intro e
      cases s
      simp only at e
      subst e
      rfl
  rw [h2]

/-! ### The branches of `main` -/

theorem mainTextfile_eq (f : Flags) (env : Env) (pre : List Action) (regC : List Collector) :
    mainTextfile f env pre regC =
      if (strings.Split f.txtfile '.').getLast? ≠ some "prom" then
        { trace := pre,
          outcome := Outcome.fatal ["filename must end with .prom extension:", f.txtfile],
          regC := regC, regP := [], mux := [] }
      else
        match env.writeToTextfile f.txtfile regC with
        | some err =>
          { trace := pre ++ [Action.writeToTextfile f.txtfile RegId.c],
            outcome := Outcome.fatal [err], regC := regC, regP := [], mux := [] }
        | none =>
          { trace := pre ++ [Action.writeToTextfile f.txtfile RegId.c],
            outcome := Outcome.exit 0, regC := regC, regP := [], mux := [] } := by
  obtain ⟨last, h1, h2⟩ := Split_last f.txtfile
  unfold mainTextfile
  simp only [h1, h2, ne_eq, Option.some.injEq, ite_not]

/-- The collectors of registry `c` and the calls made once the timezone is
loaded (lines 51-57). -/
theorem main_after_setup (f : Flags) (env : Env) (loc : Location)
    (hv : f.showVersion = false) (hr : f.regions.length ≠ 0)
    (htz : env.loadLocation "Europe/Helsinki" = Except.ok loc) :
    main f env =
      if f.txtfile = "" ∧ f.addr = "" then
        { trace := [Action.loadLocation "Europe/Helsinki", Action.newPedanticRegistry RegId.c,
            Action.mustRegister RegId.c (NewVattenfallCollector f.regions loc),
            Action.writeMetricsToStdout RegId.c],
          outcome := Outcome.exit 0,
          regC := [NewVattenfallCollector f.regions loc], regP := [], mux := [] }
      else if f.txtfile ≠ "" then
        mainTextfile f env [Action.loadLocation "Europe/Helsinki",
            Action.newPedanticRegistry RegId.c,
            Action.mustRegister RegId.c (NewVattenfallCollector f.regions loc)]
          [NewVattenfallCollector f.regions loc]
      else
        mainHTTP f env loc [Action.loadLocation "Europe/Helsinki",
            Action.newPedanticRegistry RegId.c,
            Action.mustRegister RegId.c (NewVattenfallCollector f.regions loc)]
          [NewVattenfallCollector f.regions loc] := by
  unfold main
  simp only [hv, hr, htz, MustRegister, List.nil_append, List.cons_append, if_false,
    Bool.false_eq_true]
  by_cases hf : f.txtfile = ""
  · by_cases ha : f.addr = ""
    · simp [hf, ha]
    · simp [hf, ha]
  · simp [hf]

/-- C2, counterexample: with a region, a loadable timezone and
`-output.file metrics.txt`, `main` ends in `log.Fatalln`. -/
theorem fatal_not_only_configuration :
    (main (flagsOf ["SN1"] "metrics.txt" "" false) envOk).outcome
        = Outcome.fatal ["filename must end with .prom extension:", "metrics.txt"] ∧
    (flagsOf ["SN1"] "metrics.txt" "" false).regions = ["SN1"] ∧
    envOk.loadLocation "Europe/Helsinki" = Except.ok { name := "Europe/Helsinki" } :=
  ⟨by decide, by decide, rfl⟩

/-- C2, amended: `main` ends in `log.Fatalln` exactly when `-version` is unset
and the region list is empty, or the timezone does not load, or `-output.file`
is set and the last dot-separated piece of its value is not `prom`, or
`-output.file` is set and `WriteToTextfile` fails, or only `-output.http` is
set and `net.Listen` fails or `Serve` fails. -/
theorem main_fatal_iff (f : Flags) (env : Env) :
    (main f env).outcome.isFatal = true ↔
      f.showVersion = false ∧
      (f.regions.length = 0 ∨
       (∃ err, env.loadLocation "Europe/Helsinki" = Except.error err) ∨
       (f.txtfile ≠ "" ∧ (strings.Split f.txtfile '.').getLast? ≠ some "prom") ∨
       (f.txtfile ≠ "" ∧ ∃ loc err, env.loadLocation "Europe/Helsinki" = Except.ok loc ∧
          env.writeToTextfile f.txtfile [NewVattenfallCollector f.regions loc] = some err) ∨
       (f.txtfile = "" ∧ f.addr ≠ "" ∧
          ((∃ err, env.listen f.addr = Except.error err) ∨ ∃ err, env.serve = some err))) := by
  by_cases hv : f.showVersion = true
  · simp [main, hv, Outcome.isFatal]
  · simp only [Bool.not_eq_true] at hv
    by_cases hr : f.regions.length = 0
    · simp [main, hv, hr, Outcome.isFatal]
    · cases htz : env.loadLocation "Europe/Helsinki" with
      | error err => simp [main, htz, hv, hr, Outcome.isFatal]
      | ok loc =>
        rw [main_after_setup f env loc hv hr htz]
        by_cases hf : f.txtfile = ""
        · by_cases ha : f.addr = ""
          · simp [hv, hr, hf, ha, Outcome.isFatal]
          · cases hl : env.listen f.addr with
            | error err => simp [hv, hr, hf, ha, hl, mainHTTP, Outcome.isFatal]
            | ok bound =>
              cases hs : env.serve with
              | some err => simp [hv, hr, hf, ha, hl, hs, mainHTTP, Outcome.isFatal]
              | none => simp [hv, hr, hf, ha, hl, hs, mainHTTP, Outcome.isFatal]
        · rw [mainTextfile_eq]
          by_cases hx : (strings.Split f.txtfile '.').getLast? = some "prom"
          · cases hw : env.writeToTextfile f.txtfile [NewVattenfallCollector f.regions loc] with
            | some err => simp [hv, hr, hf, hx, hw, Outcome.isFatal]
            | none => simp [hv, hr, hf, hx, hw, Outcome.isFatal]
          · simp [hv, hr, hf, hx, Outcome.isFatal]

/-- Witness of C2 (amended): a failing `net.Listen` ends `main` in
`log.Fatalln`. -/
theorem main_fatal_iff_witness :
    (main (flagsOf ["SN1"] "" ":9100" false)
      { loadLocation := fun n => Except.ok { name := n },
        writeToTextfile := fun _ _ => none,
        listen := fun _ => Except.error "address already in use",
        serve := none }).outcome.isFatal = true :=
  (main_fatal_iff (flagsOf ["SN1"] "" ":9100" false)
      { loadLocation := fun n => Except.ok { name := n },
        writeToTextfile := fun _ _ => none,
        listen := fun _ => Except.error "address already in use",
        serve := none }).2
    ⟨rfl, Or.inr (Or.inr (Or.inr (Or.inr
      ⟨rfl, by decide, Or.inl ⟨"address already in use", rfl⟩⟩)))⟩

/-- C3, the failing input: on `-region SN1 -output.file prom` the extension
check passes and `main` calls `WriteToTextfile("prom", c)` and exits with
status 0, although `prom` does not end in `.prom`; `metrics.prom` is accepted
and `metrics.txt` and `metrics.prom.bak` are refused. -/
theorem main_accepts_prom_without_dot :
    (main (flagsOf ["SN1"] "prom" "" false) envOk).trace =
      [Action.loadLocation "Europe/Helsinki", Action.newPedanticRegistry RegId.c,
        Action.mustRegister RegId.c (NewVattenfallCollector ["SN1"] { name := "Europe/Helsinki" }),
        Action.writeToTextfile "prom" RegId.c] ∧
    (main (flagsOf ["SN1"] "prom" "" false) envOk).outcome = Outcome.exit 0 ∧
    ¬ (".prom".data <:+ "prom".data) ∧
    (main (flagsOf ["SN1"] "metrics.prom" "" false) envOk).outcome = Outcome.exit 0 ∧
    (main (flagsOf ["SN1"] "metrics.txt" "" false) envOk).outcome =
      Outcome.fatal ["filename must end with .prom extension:", "metrics.txt"] ∧
    (main (flagsOf ["SN1"] "metrics.prom.bak" "" false) envOk).outcome =
      Outcome.fatal ["filename must end with .prom extension:", "metrics.prom.bak"] := by
  refine ⟨by decide, by decide, ?_, by decide, by decide, by decide⟩
  intro h
  have := h.length_le
  simp at this

/-- C5: with `-version` unset, a region and a loadable timezone, `main` enters
exactly one of its three output modes: the dump to standard output exactly when
both flags are empty, the textfile branch exactly when `-output.file` is set,
the HTTP branch exactly when `-output.file` is empty and `-output.http` is set;
with `-output.file` set `net.Listen` is never called. -/
theorem main_mode_selection (f : Flags) (env : Env) (loc : Location)
    (hv : f.showVersion = false) (hr : f.regions.length ≠ 0)
    (htz : env.loadLocation "Europe/Helsinki" = Except.ok loc) :
    ((main f env).stdoutMode = true ↔ f.txtfile = "" ∧ f.addr = "") ∧
    ((main f env).textfileMode = true ↔ f.txtfile ≠ "") ∧
    ((main f env).httpMode = true ↔ f.txtfile = "" ∧ f.addr ≠ "") ∧
    ((main f env).listened = true ↔ f.txtfile = "" ∧ f.addr ≠ "") ∧
    (f.txtfile ≠ "" → ∀ network addr, Action.listen network addr ∉ (main f env).trace) ∧
    (((main f env).stdoutMode = true ∧ (main f env).textfileMode = false ∧
        (main f env).httpMode = false) ∨
     ((main f env).stdoutMode = false ∧ (main f env).textfileMode = true ∧
        (main f env).httpMode = false) ∨
     ((main f env).stdoutMode = false ∧ (main f env).textfileMode = false ∧
        (main f env).httpMode = true)) := by
  rw [main_after_setup f env loc hv hr htz]
  by_cases hf : f.txtfile = ""
  · by_cases ha : f.addr = ""
    · simp [hf, ha, Run.stdoutMode, Run.textfileMode, Run.httpMode, Run.listened]
    · cases hl : env.listen f.addr with
      | error err =>
        simp [hf, ha, hl, mainHTTP, Run.stdoutMode, Run.textfileMode, Run.httpMode, Run.listened]
      | ok bound =>
        cases hs : env.serve with
        | some err =>
          simp [hf, ha, hl, hs, mainHTTP, Run.stdoutMode, Run.textfileMode, Run.httpMode,
            Run.listened]
        | none =>
          simp [hf, ha, hl, hs, mainHTTP, Run.stdoutMode, Run.textfileMode, Run.httpMode,
            Run.listened]
  · rw [mainTextfile_eq]
    by_cases hx : (strings.Split f.txtfile '.').getLast? = some "prom"
    · cases hw : env.writeToTextfile f.txtfile [NewVattenfallCollector f.regions loc] with
      | some err =>
        simp [hf, hx, hw, Run.stdoutMode, Run.textfileMode, Run.httpMode, Run.listened]
      | none =>
        simp [hf, hx, hw, Run.stdoutMode, Run.textfileMode, Run.httpMode, Run.listened]
    · simp [hf, hx, Run.stdoutMode, Run.textfileMode, Run.httpMode, Run.listened]

/-- Witness of C5 on `-region SN1 -output.file metrics.prom -output.http :9100`:
both flags set, the textfile branch is entered and nothing listens. -/
theorem main_mode_selection_witness :
    (main (flagsOf ["SN1"] "metrics.prom" ":9100" false) envOk).textfileMode = true ∧
    (main (flagsOf ["SN1"] "metrics.prom" ":9100" false) envOk).httpMode = false ∧
    (main (flagsOf ["SN1"] "metrics.prom" ":9100" false) envOk).listened = false :=
  let h := main_mode_selection (flagsOf ["SN1"] "metrics.prom" ":9100" false) envOk
    { name := "Europe/Helsinki" } rfl (by decide) rfl
  ⟨h.2.1.2 (by decide), by decide, by decide⟩

/-- C6: when `main` serves HTTP, the handler mounted at `/forecast` is
`forecastHandler(loc, regions)` for the parsed region list and the location
loaded under the name `Europe/Helsinki`, and the registry behind `/prices`
holds exactly the collector built from that same list and location; the only
timezone name `main` loads is `Europe/Helsinki`. -/
theorem main_forecast_regions (f : Flags) (env : Env) (loc : Location) (bound : String)
    (hv : f.showVersion = false) (hr : f.regions.length ≠ 0)
    (htz : env.loadLocation "Europe/Helsinki" = Except.ok loc)
    (hf : f.txtfile = "") (ha : f.addr ≠ "")
    (hl : env.listen f.addr = Except.ok bound) :
    (main f env).mux.lookup "/forecast"
      = some (Handler.instrumented RegId.p (forecastHandler loc f.regions)) ∧
    (main f env).mux.lookup "/prices"
      = some (Handler.instrumented RegId.p (Handler.handlerFor RegId.c)) ∧
    (main f env).served (Handler.instrumented RegId.p (Handler.handlerFor RegId.c))
      = [NewVattenfallCollector f.regions loc] ∧
    (∀ h, ("/forecast", h) ∈ (main f env).mux →
      h = Handler.instrumented RegId.p (Handler.forecast loc f.regions)) ∧
    (∀ regions loc1, Action.mustRegister RegId.c (Collector.vattenfall regions loc1)
        ∈ (main f env).trace → regions = f.regions ∧ loc1 = loc) ∧
    (∀ name, Action.loadLocation name ∈ (main f env).trace ↔ name = "Europe/Helsinki") := by
  rw [main_after_setup f env loc hv hr htz]
  cases hs : env.serve with
  | some err =>
    simp [hf, ha, hl, hs, mainHTTP, Run.served, forecastHandler, NewVattenfallCollector,
      List.lookup]
  | none =>
    simp [hf, ha, hl, hs, mainHTTP, Run.served, forecastHandler, NewVattenfallCollector,
      List.lookup]

/-- Witness of C6 on `-region SN1 -region SN3 -output.http :9100`. -/
theorem main_forecast_regions_witness :
    (main (flagsOf ["SN1", "SN3"] "" ":9100" false) envOk).mux.lookup "/forecast"
      = some (Handler.instrumented RegId.p
          (forecastHandler { name := "Europe/Helsinki" } ["SN1", "SN3"])) ∧
    (main (flagsOf ["SN1", "SN3"] "" ":9100" false) envOk).served
        (Handler.instrumented RegId.p (Handler.handlerFor RegId.c))
      = [NewVattenfallCollector ["SN1", "SN3"] { name := "Europe/Helsinki" }] :=
  let h := main_forecast_regions (flagsOf ["SN1", "SN3"] "" ":9100" false) envOk
    { name := "Europe/Helsinki" } ":9100" rfl (by decide) rfl rfl (by decide) rfl
  ⟨h.1, h.2.2.1⟩

/-- C7, counterexample: on `-region SN1 -output.http :9100` the server has
three routes and none of them returns the price gauges together with the
process and Go run-time metrics. -/
theorem no_route_serves_all_together :
    ((main (flagsOf ["SN1"] "" ":9100" false) envOk).mux.map Prod.fst
        = ["/metrics", "/prices", "/forecast"]) ∧
    ((main (flagsOf ["SN1"] "" ":9100" false) envOk).mux.filter
        (main (flagsOf ["SN1"] "" ":9100" false) envOk).servesAllTogether) = [] := by
  decide

/-- C7, amended: when `main` serves HTTP, a scrape of `/prices` returns the
metrics of the price collector only, a scrape of `/metrics` returns the
process and Go run-time metrics (and the two metrics of promhttp) without the
price gauges, and no route returns both sets. -/
theorem main_routes_split (f : Flags) (env : Env) (loc : Location) (bound : String)
    (hv : f.showVersion = false) (hr : f.regions.length ≠ 0)
    (htz : env.loadLocation "Europe/Helsinki" = Except.ok loc)
    (hf : f.txtfile = "") (ha : f.addr ≠ "")
    (hl : env.listen f.addr = Except.ok bound) :
    (main f env).mux.map Prod.fst = ["/metrics", "/prices", "/forecast"] ∧
    (∀ h, ("/prices", h) ∈ (main f env).mux →
      (main f env).served h = [NewVattenfallCollector f.regions loc]) ∧
    (∀ h, ("/metrics", h) ∈ (main f env).mux →
      (main f env).served h = [Collector.process, Collector.goRuntime,
        Collector.promhttpCounter, Collector.promhttpGauge]) ∧
    (∀ h, ("/forecast", h) ∈ (main f env).mux → (main f env).served h = []) ∧
    (∀ route ∈ (main f env).mux, (main f env).servesAllTogether route = false) := by
  rw [main_after_setup f env loc hv hr htz]
  cases hs : env.serve with
  | some err =>
    simp [hf, ha, hl, hs, mainHTTP, Run.served, forecastHandler, NewVattenfallCollector,
      Run.servesAllTogether, instrumentRegistry, MustRegister, Collector.isPrice]
  | none =>
    simp [hf, ha, hl, hs, mainHTTP, Run.served, forecastHandler, NewVattenfallCollector,
      Run.servesAllTogether, instrumentRegistry, MustRegister, Collector.isPrice]

/-- Witness of C7 (amended) on `-region SN1 -output.http :9100`. -/
theorem main_routes_split_witness :
    (main (flagsOf ["SN1"] "" ":9100" false) envOk).mux.map Prod.fst
      = ["/metrics", "/prices", "/forecast"] ∧
    (main (flagsOf ["SN1"] "" ":9100" false) envOk).served (Handler.handlerFor RegId.p)
      = [Collector.process, Collector.goRuntime, Collector.promhttpCounter,
          Collector.promhttpGauge] :=
  let h := main_routes_split (flagsOf ["SN1"] "" ":9100" false) envOk
    { name := "Europe/Helsinki" } ":9100" rfl (by decide) rfl rfl (by decide) rfl
  ⟨h.1, h.2.2.1 (Handler.handlerFor RegId.p) (by decide)⟩

/-! ### The forecast filter and the collection pass -/

theorem futurePoints_eq_filter (cur : Int) (ps : RegionPriceSet) :
    futurePoints cur ps = ps.filter fun p => decide (cur ≤ p.bucketStart) := by
  induction ps with
  | nil => rfl
  | cons p ps ih =>
    by_cases h : cur ≤ p.bucketStart
    · simp [futurePoints, h, ih]
    · simp [futurePoints, h, ih]

theorem futurePoints_of_all (cur : Int) (ps : RegionPriceSet)
    (h : ∀ p ∈ ps, cur ≤ p.bucketStart) : futurePoints cur ps = ps := by
  rw [futurePoints_eq_filter]
  exact List.filter_eq_self.2 fun p hp => by simpa using h p hp

theorem futurePoints_suffix (cur : Int) (ps : RegionPriceSet) (hs : ps.ascending) :
    futurePoints cur ps <:+ ps := by
  induction ps with
  | nil => exact List.suffix_refl _
  | cons p ps ih =>
    have hp := List.pairwise_cons.1 hs
    by_cases h : cur ≤ p.bucketStart
    · have hall : ∀ q ∈ p :: ps, cur ≤ q.bucketStart := by
        intro q hq
        rcases List.mem_cons.1 hq with e | m
        · rw [e]; exact h
        · exact le_trans h (hp.1 q m)
      rw [futurePoints_of_all cur (p :: ps) hall]
    · have : futurePoints cur (p :: ps) = futurePoints cur ps := by simp [futurePoints, h]
      rw [this]
      exact (ih hp.2).trans (List.suffix_cons p ps)

theorem forecast_regions (cache : Region → CacheEntry) (cur : Int) (regions : List Region) :
    (ForecastProjector.forecast cache cur regions).map Prod.fst = regions ∧
    ∀ r ∈ regions, (r, futurePoints cur (RegionCache.get cache r))
      ∈ ForecastProjector.forecast cache cur regions := by
  induction regions with
  | nil => simp [ForecastProjector.forecast]
  | cons r rs ih =>
    refine ⟨by simp [ForecastProjector.forecast, ih.1], ?_⟩
    intro q hq
    rcases List.mem_cons.1 hq with e | m
    · subst e
      simp [ForecastProjector.forecast]
    · exact List.mem_cons_of_mem _ (ih.2 q m)

/-- C8: for a region whose cached price set is ascending by bucket start, the
forecast is exactly the points of the set at or after the current bucket: it
is the filter of the set, a sub-sequence and indeed the tail end of it, it
holds a point exactly when the set holds it at or after the current bucket, it
is ascending, and it is the empty sequence when no point qualifies; the
response lists the requested regions, each with that sequence. -/
theorem forecast_is_future_suffix (cache : Region → CacheEntry) (cur : Int) (r : Region)
    (regions : List Region) (hs : (RegionCache.get cache r).ascending) :
    futurePoints cur (RegionCache.get cache r)
      = (RegionCache.get cache r).filter (fun p => decide (cur ≤ p.bucketStart)) ∧
    (futurePoints cur (RegionCache.get cache r)).Sublist (RegionCache.get cache r) ∧
    futurePoints cur (RegionCache.get cache r) <:+ RegionCache.get cache r ∧
    (∀ p, p ∈ futurePoints cur (RegionCache.get cache r)
      ↔ p ∈ RegionCache.get cache r ∧ cur ≤ p.bucketStart) ∧
    RegionPriceSet.ascending (futurePoints cur (RegionCache.get cache r)) ∧
    ((∀ p ∈ RegionCache.get cache r, p.bucketStart < cur) →
      futurePoints cur (RegionCache.get cache r) = []) ∧
    (ForecastProjector.forecast cache cur regions).map Prod.fst = regions ∧
    (r ∈ regions → (r, futurePoints cur (RegionCache.get cache r))
      ∈ ForecastProjector.forecast cache cur regions) := by
  have hsuf := futurePoints_suffix cur _ hs
  refine ⟨futurePoints_eq_filter cur _, hsuf.sublist, hsuf, ?_, ?_, ?_,
    (forecast_regions cache cur regions).1, (forecast_regions cache cur regions).2 r⟩
  · intro p
    rw [futurePoints_eq_filter]
    simp [List.mem_filter]
  · exact List.Pairwise.sublist hsuf.sublist hs
  · intro hnone
    rw [futurePoints_eq_filter]
    refine List.filter_eq_nil_iff.2 fun p hp => ?_
    have := hnone p hp
    simp only [decide_eq_true_eq, not_le]
    exact this

/-- Witness of C8: region `A` caches the buckets 09:00, 10:00 and 11:00, the
current bucket is 10:00, and the forecast is 10:00 and 11:00 in that order. -/
theorem forecast_is_future_suffix_witness :
    futurePoints (hour 10) (RegionCache.get cacheAB "A")
      = [{ bucketStart := hour 10, price := 498 }, { bucketStart := hour 11, price := 530 }] ∧
    ("A", futurePoints (hour 10) (RegionCache.get cacheAB "A"))
      ∈ ForecastProjector.forecast cacheAB (hour 10) ["A"] :=
  let h := forecast_is_future_suffix cacheAB (hour 10) "A" ["A"]
    (by unfold RegionPriceSet.ascending; decide)
  ⟨by decide, h.2.2.2.2.2.2.2 (by decide)⟩

end Vattenfall
